import Mathlib

/-!
Shallow embedding of the boloform repository:
- the client field placement model (src/client/src/components/PDFViewer.tsx:
  handleDragEnd, handleResize; PlacedField.tsx: onResizePointerDown),
- the server PDF annotation renderer (src/server/src/controllers/pdfController.ts:
  signPdf).

JavaScript numbers are embedded as rationals; the external pdf-lib and crypto
operations (image embedding, document save, SHA-256) are universally quantified
function parameters of the model.
-/

namespace Boloform

/-- Field tool types, from the FieldType union in Sidebar.tsx /
the type dispatch in pdfController.ts. -/
inductive FieldType where
  | text
  | signature
  | date
  | image
  | radio
deriving DecidableEq

/-- A placed field, from the FieldData interface in PDFViewer.tsx plus the
optional content consumed by pdfController.ts. Coordinates and sizes are
percentages of the page; page is the 1-based page number. -/
structure Field where
  id : String
  type : FieldType
  x : ℚ
  y : ℚ
  width : ℚ
  height : ℚ
  page : ℤ
  content : Option String
deriving DecidableEq

/-! ## Client field placement model (PDFViewer.tsx) -/

/-- Default width at placement: `const defaultWidth = 20` in handleDragEnd. -/
def defaultWidth : ℚ := 20

/-- Default height at placement: `const defaultHeight = 5` in handleDragEnd. -/
def defaultHeight : ℚ := 5

/-- The field created by the isTool branch of handleDragEnd (PDFViewer.tsx
lines 311-327): position clamped with Math.max/Math.min, fixed size. -/
def placeField (t : FieldType) (fid : String) (pg : ℤ) (percentX percentY : ℚ) : Field :=
  { id := fid
    type := t
    x := max 0 (min (100 - defaultWidth) percentX)
    y := max 0 (min (100 - defaultHeight) percentY)
    width := defaultWidth
    height := defaultHeight
    page := pg
    content := none }

/-- `setFields (prev) => [...prev, newField]`: placement appends the new field. -/
def place (l : List Field) (t : FieldType) (fid : String) (pg : ℤ)
    (percentX percentY : ℚ) : List Field :=
  l ++ [placeField t fid pg percentX percentY]

/-- The per-field update of the isPlaced branch of handleDragEnd (PDFViewer.tsx
lines 329-344): clamp the drop position to the field's current size and update
the page; other fields are returned unchanged. -/
def moveOne (fid : String) (percentX percentY : ℚ) (pg : ℤ) (f : Field) : Field :=
  if f.id = fid then
    { f with
      x := max 0 (min (100 - f.width) percentX)
      y := max 0 (min (100 - f.height) percentY)
      page := pg }
  else f

/-- `setFields (prev) => prev.map (...)` in the isPlaced branch of handleDragEnd. -/
def move (l : List Field) (fid : String) (percentX percentY : ℚ) (pg : ℤ) : List Field :=
  l.map (moveOne fid percentX percentY pg)

/-- handleResize (PDFViewer.tsx lines 355-362): overwrite width and height of
the field with the given id, leaving everything else unchanged. -/
def handleResize (l : List Field) (fid : String) (w h : ℚ) : List Field :=
  l.map fun f => if f.id = fid then { f with width := w, height := h } else f

/-- Width clamp of onResizePointerDown (PlacedField.tsx lines 96-99):
`Math.min(maxWidth, Math.max(5, startWidthPc + deltaWidthPc))` with
`maxWidth = 100 - x`. -/
def resizeClampW (x startW dw : ℚ) : ℚ :=
  min (100 - x) (max 5 (startW + dw))

/-- Height clamp of onResizePointerDown (PlacedField.tsx lines 97-100):
`Math.min(maxHeight, Math.max(2, startHeightPc + deltaHeightPc))` with
`maxHeight = 100 - y`. -/
def resizeClampH (y startH dh : ℚ) : ℚ :=
  min (100 - y) (max 2 (startH + dh))

/-- A resize gesture applied to one field: onResizePointerDown computes the
clamped size from that field's props and passes it to onResize. -/
def resizeField (f : Field) (dw dh : ℚ) : Field :=
  { f with
    width := resizeClampW f.x f.width dw
    height := resizeClampH f.y f.height dh }

/-- The list-level effect of a resize gesture: handleResize maps over the list
updating the field with the matching id to the clamped size computed by
onResizePointerDown from that field's own geometry. -/
def resize (l : List Field) (fid : String) (dw dh : ℚ) : List Field :=
  l.map fun f => if f.id = fid then resizeField f dw dh else f

/-- A client field-list operation, each applying its clamping. -/
inductive Op where
  | place (t : FieldType) (fid : String) (pg : ℤ) (percentX percentY : ℚ)
  | move (fid : String) (percentX percentY : ℚ) (pg : ℤ)
  | resize (fid : String) (dw dh : ℚ)

/-- Apply one operation to the field list. -/
def applyOp (l : List Field) : Op → List Field
  | .place t fid pg px py => place l t fid pg px py
  | .move fid px py pg => move l fid px py pg
  | .resize fid dw dh => resize l fid dw dh

/-- Apply a sequence of operations, in order, to the field list. -/
def applyOps (l : List Field) : List Op → List Field
  | [] => l
  | o :: os => applyOps (applyOp l o) os

/-! ## Server PDF annotation renderer (pdfController.ts, signPdf) -/

/-- An rgb color as passed to pdf-lib's `rgb(r, g, b)`. -/
structure RGB where
  r : ℚ
  g : ℚ
  b : ℚ
deriving DecidableEq

/-- A drawing command issued on a page, abstracting pdf-lib's drawImage,
drawRectangle, drawText and drawEllipse calls. `pageIdx` is the 0-based index
of the page drawn on. -/
inductive DrawOp where
  | image (pageIdx : ℕ) (x y w h : ℚ)
  | rect (pageIdx : ℕ) (x y w h : ℚ) (border : RGB) (fill : Option RGB)
      (opacity : Option ℚ)
  | text (pageIdx : ℕ) (s : String) (x y size : ℚ)
  | ellipse (pageIdx : ℕ) (cx cy xScale yScale : ℚ) (border : RGB) (fill : RGB)
      (opacity : ℚ)
deriving DecidableEq

/-- Percentage-to-point conversion of signPdf (pdfController.ts lines 75-78),
returning (x, y, wPoints, hPoints). -/
def toPoints (f : Field) (pageWidth pageHeight : ℚ) : ℚ × ℚ × ℚ × ℚ :=
  let x := f.x / 100 * pageWidth
  let hPoints := f.height / 100 * pageHeight
  let wPoints := f.width / 100 * pageWidth
  let y := pageHeight - f.y / 100 * pageHeight - hPoints
  (x, y, wPoints, hPoints)

/-- JavaScript truthiness of the optional content string, as tested by
`if (field.content)`: undefined and the empty string are falsy. -/
def truthy : Option String → Bool
  | none => false
  | some s => !s.isEmpty

/-- JavaScript's String.prototype.startsWith: the second string is a prefix of
the first, expressed on the character lists. -/
def strStartsWith (s p : String) : Bool :=
  p.data.isPrefixOf s.data

/-- The data-URI dispatch of signPdf (pdfController.ts lines 85-89): content is
handed to embedPng or embedJpg exactly when it starts with one of these three
tags. -/
def isEmbeddableImage (c : String) : Bool :=
  strStartsWith c "data:image/png" || strStartsWith c "data:image/jpeg" ||
    strStartsWith c "data:image/jpg"

/-- Drawing commands produced for one field on its (existing) page, from the
type dispatch of signPdf (pdfController.ts lines 80-150). `embed` abstracts
pdf-lib's embedPng/embedJpg followed by scaleToFit: it returns the scaled
dimensions of the embedded image, or none when embedding throws (the catch
block leaves `image` undefined). -/
def renderField (embed : String → Option (ℚ × ℚ)) (pIdx : ℕ)
    (pageWidth pageHeight : ℚ) (f : Field) : List DrawOp :=
  let pts := toPoints f pageWidth pageHeight
  let x := pts.1
  let y := pts.2.1
  let wPoints := pts.2.2.1
  let hPoints := pts.2.2.2
  if f.type = .signature ∨ f.type = .image then
    if truthy f.content then
      let c := f.content.getD ""
      let image := if isEmbeddableImage c then embed c else none
      match image with
      | some dims =>
        let xOffset := (wPoints - dims.1) / 2
        let yOffset := (hPoints - dims.2) / 2
        [.image pIdx (x + xOffset) (y + yOffset) dims.1 dims.2]
      | none => []
    else
      [.rect pIdx x y wPoints hPoints ⟨1, 0, 0⟩ none none]
  else if f.type = .text then
    .rect pIdx x y wPoints hPoints ⟨0, 0, 1⟩ none none ::
      (if truthy f.content then
        [.text pIdx (f.content.getD "") (x + 5) (y + hPoints - 15) 12]
      else [])
  else if f.type = .date then
    [.rect pIdx x y wPoints hPoints ⟨96/100, 62/100, 4/100⟩
      (some ⟨96/100, 62/100, 4/100⟩) (some (1/10))]
  else
    let centerX := x + wPoints / 2
    let centerY := y + hPoints / 2
    let radius := min wPoints hPoints / 2
    [.ellipse pIdx centerX centerY radius radius ⟨92/100, 28/100, 60/100⟩
      ⟨92/100, 28/100, 60/100⟩ (1/10)]

/-- The field loop of signPdf (pdfController.ts lines 68-151). `pages` is the
list of (width, height) page sizes from getPages. A field whose 0-based
`pageIndex = field.page - 1` is `>= pages.length` is skipped by `continue`;
for a negative pageIndex the guard does not fire, `pages[pageIndex]` is
undefined in JavaScript and `page.getSize()` throws, modeled as `.error ()`. -/
def processFields (embed : String → Option (ℚ × ℚ)) (pages : List (ℚ × ℚ)) :
    List Field → Except Unit (List DrawOp)
  | [] => .ok []
  | f :: rest =>
    let pageIndex : ℤ := f.page - 1
    if (pages.length : ℤ) ≤ pageIndex then
      processFields embed pages rest
    else if pageIndex < 0 then
      .error ()
    else
      let idx := pageIndex.toNat
      let pg := pages.getD idx (0, 0)
      (processFields embed pages rest).map
        (fun draws => renderField embed idx pg.1 pg.2 f ++ draws)

/-- The JSON body returned by signPdf on success (url is the signed PDF bytes,
returned to the client as a base64 data URI). -/
structure SignSuccess where
  url : List ℕ
  originalHash : List ℕ
  signedHash : List ℕ
deriving DecidableEq

/-- Outcome of a sign request: the success JSON, or the HTTP 500 error response
from the catch block (pdfController.ts lines 179-185). -/
inductive SignResponse where
  | success (r : SignSuccess)
  | serverError
deriving DecidableEq

/-- The sign request pipeline of signPdf for a request carrying pdfBase64:
hash the original bytes, load the pages, run the field loop, save, hash the
result (pdfController.ts lines 57-177). The external library functions are
parameters: `sha256` hashes bytes, `loadPages` gives the page sizes of a
loaded document, `save` serializes the annotated document from the original
bytes and the drawing commands applied to it. Any exception in the field loop
reaches the catch block and yields the 500 response. -/
def signPdfModel (sha256 : List ℕ → List ℕ) (loadPages : List ℕ → List (ℚ × ℚ))
    (save : List ℕ → List DrawOp → List ℕ) (embed : String → Option (ℚ × ℚ))
    (pdfBuffer : List ℕ) (fields : List Field) : SignResponse :=
  let originalHash := sha256 pdfBuffer
  let pages := loadPages pdfBuffer
  match processFields embed pages fields with
  | .error _ => .serverError
  | .ok draws =>
    let signedPdfBytes := save pdfBuffer draws
    .success
      { url := signedPdfBytes
        originalHash := originalHash
        signedHash := sha256 signedPdfBytes }

/-! ## Reachable-state invariant of the client field list -/

/-- Invariant of every field the client can produce: in bounds, and at least
the minimum size enforced by the resize clamp (placement creates 20 x 5). -/
def StrongInv (f : Field) : Prop :=
  0 ≤ f.x ∧ 0 ≤ f.y ∧ f.x + f.width ≤ 100 ∧ f.y + f.height ≤ 100 ∧
    5 ≤ f.width ∧ 2 ≤ f.height

lemma placeField_strongInv (t : FieldType) (fid : String) (pg : ℤ)
    (px py : ℚ) : StrongInv (placeField t fid pg px py) := by
  have hx : max 0 (min (100 - defaultWidth) px) ≤ 100 - defaultWidth :=
    max_le (by norm_num [defaultWidth]) (min_le_left _ _)
  have hy : max 0 (min (100 - defaultHeight) py) ≤ 100 - defaultHeight :=
    max_le (by norm_num [defaultHeight]) (min_le_left _ _)
  refine ⟨le_max_left _ _, le_max_left _ _, by simp [placeField]; linarith,
    by simp [placeField]; linarith, by norm_num [placeField, defaultWidth],
    by norm_num [placeField, defaultHeight]⟩

lemma moveOne_strongInv (fid : String) (px py : ℚ) (pg : ℤ) (f : Field)
    (h : StrongInv f) : StrongInv (moveOne fid px py pg f) := by
  obtain ⟨hx, hy, hxw, hyh, hw, hh⟩ := h
  unfold moveOne
  split
  · have hwle : f.width ≤ 100 := by linarith
    have hhle : f.height ≤ 100 := by linarith
    have hx1 : max 0 (min (100 - f.width) px) ≤ 100 - f.width :=
      max_le (by linarith) (min_le_left _ _)
    have hy1 : max 0 (min (100 - f.height) py) ≤ 100 - f.height :=
      max_le (by linarith) (min_le_left _ _)
    exact ⟨le_max_left _ _, le_max_left _ _, by simpa using by linarith,
      by simpa using by linarith, hw, hh⟩
  · exact ⟨hx, hy, hxw, hyh, hw, hh⟩

lemma resizeClampW_bounds (x w dw : ℚ) (hx : 0 ≤ x) (hxw : x + w ≤ 100)
    (hw : 5 ≤ w) : 5 ≤ resizeClampW x w dw ∧ x + resizeClampW x w dw ≤ 100 := by
  unfold resizeClampW
  constructor
  · exact le_min (by linarith) (le_max_left _ _)
  · have := min_le_left (100 - x) (max 5 (w + dw))
    linarith

lemma resizeClampH_bounds (y h dh : ℚ) (hy : 0 ≤ y) (hyh : y + h ≤ 100)
    (hh : 2 ≤ h) : 2 ≤ resizeClampH y h dh ∧ y + resizeClampH y h dh ≤ 100 := by
  unfold resizeClampH
  constructor
  · exact le_min (by linarith) (le_max_left _ _)
  · have := min_le_left (100 - y) (max 2 (h + dh))
    linarith

lemma resizeField_strongInv (f : Field) (dw dh : ℚ) (h : StrongInv f) :
    StrongInv (resizeField f dw dh) := by
  obtain ⟨hx, hy, hxw, hyh, hw, hh⟩ := h
  obtain ⟨hw1, hw2⟩ := resizeClampW_bounds f.x f.width dw hx hxw hw
  obtain ⟨hh1, hh2⟩ := resizeClampH_bounds f.y f.height dh hy hyh hh
  exact ⟨hx, hy, hw2, hh2, hw1, hh1⟩

lemma applyOp_strongInv (l : List Field) (o : Op)
    (h : ∀ f ∈ l, StrongInv f) : ∀ f ∈ applyOp l o, StrongInv f := by
  intro f hf
  cases o with
  | place t fid pg px py =>
    simp only [applyOp, place, List.mem_append, List.mem_singleton] at hf
    rcases hf with hf | rfl
    · exact h f hf
    · exact placeField_strongInv t fid pg px py
  | move fid px py pg =>
    simp only [applyOp, move, List.mem_map] at hf
    obtain ⟨g, hg, rfl⟩ := hf
    exact moveOne_strongInv fid px py pg g (h g hg)
  | resize fid dw dh =>
    simp only [applyOp, resize, List.mem_map] at hf
    obtain ⟨g, hg, rfl⟩ := hf
    split
    · exact resizeField_strongInv g dw dh (h g hg)
    · exact h g hg

lemma applyOps_strongInv (ops : List Op) (l : List Field)
    (h : ∀ f ∈ l, StrongInv f) : ∀ f ∈ applyOps l ops, StrongInv f := by
  induction ops generalizing l with
  | nil => exact h
  | cons o os ih => exact ih (applyOp l o) (applyOp_strongInv l o h)

/-- C2: every field in the client field list, after any sequence of place,
move and resize operations (each applying its clamping) starting from the
empty list, satisfies 0 ≤ x, 0 ≤ y, x + width ≤ 100 and y + height ≤ 100. -/
theorem placed_fields_stay_in_bounds (ops : List Op) (f : Field)
    (hf : f ∈ applyOps [] ops) :
    0 ≤ f.x ∧ 0 ≤ f.y ∧ f.x + f.width ≤ 100 ∧ f.y + f.height ≤ 100 := by
  have h := applyOps_strongInv ops [] (by simp) f hf
  exact ⟨h.1, h.2.1, h.2.2.1, h.2.2.2.1⟩

/-- Witness for C2 at a concrete out-of-range placement. -/
theorem placed_fields_stay_in_bounds_witness :
    placeField .text "a" 1 90 99 ∈ applyOps [] [Op.place .text "a" 1 90 99] ∧
      (0 ≤ (placeField .text "a" 1 90 99).x ∧
        0 ≤ (placeField .text "a" 1 90 99).y ∧
        (placeField .text "a" 1 90 99).x + (placeField .text "a" 1 90 99).width ≤ 100 ∧
        (placeField .text "a" 1 90 99).y + (placeField .text "a" 1 90 99).height ≤ 100) :=
  ⟨by simp [applyOps, applyOp, place],
    placed_fields_stay_in_bounds [Op.place .text "a" 1 90 99] _
      (by simp [applyOps, applyOp, place])⟩

/-! ## Claim theorems about the renderer and the placement operations -/

/-- The field of the coordinate round-trip example: x=10, y=10, width=20,
height=5 (percent). -/
def sampleField : Field :=
  { id := "sample", type := .date, x := 10, y := 10, width := 20, height := 5,
    page := 1, content := none }

/-- C1: the renderer's percentage-to-point conversion is
xPoints = x/100*pageWidth, wPoints = width/100*pageWidth,
hPoints = height/100*pageHeight and
yPoints = pageHeight - y/100*pageHeight - hPoints; a field at
(x=10, y=10, width=20, height=5) on a 600 x 800 point page maps to
point-space top-left (60, 680). -/
theorem percent_to_point_conversion :
    (∀ (f : Field) (pw ph : ℚ), toPoints f pw ph =
      (f.x / 100 * pw, ph - f.y / 100 * ph - f.height / 100 * ph,
        f.width / 100 * pw, f.height / 100 * ph)) ∧
    (toPoints sampleField 600 800).1 = 60 ∧
    (toPoints sampleField 600 800).2.1 = 680 ∧
    (toPoints sampleField 600 800).2.2.1 = 120 ∧
    (toPoints sampleField 600 800).2.2.2 = 40 := by
  refine ⟨fun f pw ph => rfl, ?_, ?_, ?_, ?_⟩ <;> norm_num [toPoints, sampleField]

/-- C3: for every tool type and drop position, placement creates a field of
width 20 and height 5 percent at x = max 0 (min (100 - 20) percentX),
y = max 0 (min (100 - 5) percentY), and appends it to the field list. -/
theorem place_appends_default_sized_clamped_field (l : List Field)
    (t : FieldType) (fid : String) (pg : ℤ) (percentX percentY : ℚ) :
    place l t fid pg percentX percentY = l ++
      [{ id := fid, type := t,
         x := max 0 (min (100 - 20) percentX),
         y := max 0 (min (100 - 5) percentY),
         width := 20, height := 5, page := pg, content := none }] := rfl

/-- C4: a resize gesture keeps the field's top-left fixed, and for any field
satisfying the client invariant the clamped new size respects the minimum
width 5 and height 2 while keeping the bottom-right inside the page. -/
theorem resize_keeps_topleft_and_stays_in_page (f : Field) (dw dh : ℚ)
    (hx : 0 ≤ f.x) (hy : 0 ≤ f.y) (hxw : f.x + f.width ≤ 100)
    (hyh : f.y + f.height ≤ 100) (hw : 5 ≤ f.width) (hh : 2 ≤ f.height) :
    (resizeField f dw dh).x = f.x ∧ (resizeField f dw dh).y = f.y ∧
      5 ≤ (resizeField f dw dh).width ∧ 2 ≤ (resizeField f dw dh).height ∧
      (resizeField f dw dh).x + (resizeField f dw dh).width ≤ 100 ∧
      (resizeField f dw dh).y + (resizeField f dw dh).height ≤ 100 := by
  obtain ⟨hw1, hw2⟩ := resizeClampW_bounds f.x f.width dw hx hxw hw
  obtain ⟨hh1, hh2⟩ := resizeClampH_bounds f.y f.height dh hy hyh hh
  exact ⟨rfl, rfl, hw1, hh1, hw2, hh2⟩

/-- Witness for C4: a resize by (+1000, -1000) percent on the sample field. -/
theorem resize_keeps_topleft_and_stays_in_page_witness :
    (0 ≤ sampleField.x ∧ 0 ≤ sampleField.y ∧
      sampleField.x + sampleField.width ≤ 100 ∧
      sampleField.y + sampleField.height ≤ 100 ∧
      5 ≤ sampleField.width ∧ 2 ≤ sampleField.height) ∧
    ((resizeField sampleField 1000 (-1000)).x = sampleField.x ∧
      (resizeField sampleField 1000 (-1000)).y = sampleField.y ∧
      5 ≤ (resizeField sampleField 1000 (-1000)).width ∧
      2 ≤ (resizeField sampleField 1000 (-1000)).height ∧
      (resizeField sampleField 1000 (-1000)).x +
        (resizeField sampleField 1000 (-1000)).width ≤ 100 ∧
      (resizeField sampleField 1000 (-1000)).y +
        (resizeField sampleField 1000 (-1000)).height ≤ 100) :=
  ⟨by norm_num [sampleField],
    resize_keeps_topleft_and_stays_in_page sampleField 1000 (-1000)
      (by norm_num [sampleField]) (by norm_num [sampleField])
      (by norm_num [sampleField]) (by norm_num [sampleField])
      (by norm_num [sampleField]) (by norm_num [sampleField])⟩

/-- A field referencing page 99, as in the spec's out-of-range example. -/
def field99 : Field := { sampleField with id := "f99", page := 99 }

/-- A field referencing page 0 (the lower bound the guard does not check). -/
def field0 : Field := { sampleField with id := "f0", page := 0 }

/-- C5: a field whose 0-based page index is at least the page count is skipped
by the field loop without an error: the loop result and the whole sign
response are the same as without that field, so the remaining fields are
still processed and the request still succeeds. -/
theorem out_of_range_page_skipped (sha256 : List ℕ → List ℕ)
    (loadPages : List ℕ → List (ℚ × ℚ)) (save : List ℕ → List DrawOp → List ℕ)
    (embed : String → Option (ℚ × ℚ)) (pdf : List ℕ) (f : Field)
    (rest : List Field) (h : ((loadPages pdf).length : ℤ) ≤ f.page - 1) :
    processFields embed (loadPages pdf) (f :: rest) =
      processFields embed (loadPages pdf) rest ∧
    signPdfModel sha256 loadPages save embed pdf (f :: rest) =
      signPdfModel sha256 loadPages save embed pdf rest := by
  have h1 : processFields embed (loadPages pdf) (f :: rest) =
      processFields embed (loadPages pdf) rest := by
    simp only [processFields]
    rw [if_pos h]
  exact ⟨h1, by simp only [signPdfModel, h1]⟩

/-- Witness for C5: page 99 on a one-page 600 x 800 document, with a page-1
field after it; the skipped field changes nothing and the request succeeds. -/
theorem out_of_range_page_skipped_witness :
    ((((fun _ : List ℕ => [((600 : ℚ), (800 : ℚ))]) []).length : ℤ) ≤
        field99.page - 1) ∧
    (processFields (fun _ => none) ((fun _ : List ℕ => [((600 : ℚ), (800 : ℚ))]) [])
        (field99 :: [sampleField]) =
      processFields (fun _ => none)
        ((fun _ : List ℕ => [((600 : ℚ), (800 : ℚ))]) []) [sampleField] ∧
    signPdfModel (fun b => b) (fun _ : List ℕ => [((600 : ℚ), (800 : ℚ))])
        (fun b _ => b) (fun _ => none) [] (field99 :: [sampleField]) =
      signPdfModel (fun b => b) (fun _ : List ℕ => [((600 : ℚ), (800 : ℚ))])
        (fun b _ => b) (fun _ => none) [] [sampleField]) ∧
    (∃ r, signPdfModel (fun b => b) (fun _ : List ℕ => [((600 : ℚ), (800 : ℚ))])
        (fun b _ => b) (fun _ => none) [] (field99 :: [sampleField]) =
      .success r) :=
  ⟨by norm_num [field99, sampleField],
    out_of_range_page_skipped (fun b => b)
      (fun _ : List ℕ => [((600 : ℚ), (800 : ℚ))]) (fun b _ => b) (fun _ => none)
      [] field99 [sampleField] (by norm_num [field99, sampleField]),
    ⟨_, rfl⟩⟩

/-- C6: a signature or image field whose content is present (truthy) but does
not start with a PNG or JPEG data-URI tag produces no drawing command at all,
and with a valid page the field loop continues exactly as if the field were
absent, for any outcome of the embedding oracle. -/
theorem unsupported_image_content_draws_nothing
    (embed : String → Option (ℚ × ℚ)) (f : Field) (c : String)
    (ht : f.type = .signature ∨ f.type = .image) (hc : f.content = some c)
    (hne : c.isEmpty = false) (hpre : isEmbeddableImage c = false) :
    (∀ (pIdx : ℕ) (pw ph : ℚ), renderField embed pIdx pw ph f = []) ∧
    (∀ (pages : List (ℚ × ℚ)) (rest : List Field),
      0 ≤ f.page - 1 → f.page - 1 < (pages.length : ℤ) →
      processFields embed pages (f :: rest) = processFields embed pages rest) := by
  have hrender : ∀ (pIdx : ℕ) (pw ph : ℚ), renderField embed pIdx pw ph f = [] := by
    intro pIdx pw ph
    rcases ht with ht | ht <;>
      simp [renderField, ht, hc, truthy, hne, hpre]
  refine ⟨hrender, ?_⟩
  intro pages rest h0 hlt
  simp only [processFields]
  rw [if_neg (not_le.mpr hlt), if_neg (not_lt.mpr h0)]
  simp only [hrender, List.nil_append]
  cases processFields embed pages rest <;> rfl

/-- A signature field whose content is a plain-text data URI. -/
def badContentField : Field :=
  { id := "sig1", type := .signature, x := 10, y := 10, width := 20,
    height := 5, page := 1, content := some "data:text/plain;base64,aGVsbG8=" }

/-- Witness for C6: the plain-text data URI on a signature field draws nothing
and the loop continues. -/
theorem unsupported_image_content_draws_nothing_witness :
    ((badContentField.type = .signature ∨ badContentField.type = .image) ∧
      badContentField.content = some "data:text/plain;base64,aGVsbG8=" ∧
      ("data:text/plain;base64,aGVsbG8=").isEmpty = false ∧
      isEmbeddableImage "data:text/plain;base64,aGVsbG8=" = false) ∧
    (∀ (pIdx : ℕ) (pw ph : ℚ),
      renderField (fun _ => none) pIdx pw ph badContentField = []) :=
  ⟨⟨Or.inl rfl, rfl, rfl, rfl⟩,
    (unsupported_image_content_draws_nothing (fun _ => none) badContentField
      "data:text/plain;base64,aGVsbG8=" (Or.inl rfl) rfl rfl rfl).1⟩

/-- C7: a text field always draws the blue outlined rectangle at its box, and
draws its content at (x + 5, y + hPoints - 15) in size 12 exactly when the
content is present (truthy). -/
theorem text_field_outline_and_conditional_text
    (embed : String → Option (ℚ × ℚ)) (pIdx : ℕ) (pw ph : ℚ) (f : Field)
    (h : f.type = .text) :
    renderField embed pIdx pw ph f =
      .rect pIdx (toPoints f pw ph).1 (toPoints f pw ph).2.1
          (toPoints f pw ph).2.2.1 (toPoints f pw ph).2.2.2 ⟨0, 0, 1⟩ none none ::
        (if truthy f.content then
          [.text pIdx (f.content.getD "") ((toPoints f pw ph).1 + 5)
            ((toPoints f pw ph).2.1 + (toPoints f pw ph).2.2.2 - 15) 12]
        else []) := by
  simp [renderField, h]

/-- A text field with no content. -/
def textFieldNone : Field :=
  { id := "t1", type := .text, x := 10, y := 10, width := 20, height := 5,
    page := 1, content := none }

/-- Witness for C7: with no content only the outline is drawn. -/
theorem text_field_outline_and_conditional_text_witness :
    textFieldNone.type = .text ∧
    renderField (fun _ => none) 0 600 800 textFieldNone =
      [.rect 0 (toPoints textFieldNone 600 800).1
        (toPoints textFieldNone 600 800).2.1
        (toPoints textFieldNone 600 800).2.2.1
        (toPoints textFieldNone 600 800).2.2.2 ⟨0, 0, 1⟩ none none] :=
  ⟨rfl, by
    simpa [truthy, textFieldNone] using
      text_field_outline_and_conditional_text (fun _ => none) 0 600 800
        textFieldNone rfl⟩

/-- C8: the sign pipeline is deterministic in its inputs: identical PDF bytes
and field lists (with the same external hash, page-loading, save and embed
functions, hence identical embedded image bytes) give the same response, and
in particular the same signedHash. -/
theorem sign_pipeline_deterministic (sha256 : List ℕ → List ℕ)
    (loadPages : List ℕ → List (ℚ × ℚ)) (save : List ℕ → List DrawOp → List ℕ)
    (embed : String → Option (ℚ × ℚ)) (pdf1 pdf2 : List ℕ)
    (fields1 fields2 : List Field) (hp : pdf1 = pdf2) (hf : fields1 = fields2) :
    signPdfModel sha256 loadPages save embed pdf1 fields1 =
      signPdfModel sha256 loadPages save embed pdf2 fields2 ∧
    (∀ r1 r2, signPdfModel sha256 loadPages save embed pdf1 fields1 = .success r1 →
      signPdfModel sha256 loadPages save embed pdf2 fields2 = .success r2 →
      r1.signedHash = r2.signedHash) := by
  subst hp; subst hf
  refine ⟨rfl, fun r1 r2 h1 h2 => ?_⟩
  rw [h1] at h2
  cases h2
  rfl

/-- Witness for C8 at concrete equal inputs. -/
theorem sign_pipeline_deterministic_witness :
    ([1, 2, 3] : List ℕ) = [1, 2, 3] ∧ ([sampleField] : List Field) = [sampleField] ∧
    signPdfModel (fun b => b) (fun _ => [((600 : ℚ), (800 : ℚ))]) (fun b _ => b)
        (fun _ => none) [1, 2, 3] [sampleField] =
      signPdfModel (fun b => b) (fun _ => [((600 : ℚ), (800 : ℚ))]) (fun b _ => b)
        (fun _ => none) [1, 2, 3] [sampleField] :=
  ⟨rfl, rfl,
    (sign_pipeline_deterministic (fun b => b) (fun _ => [((600 : ℚ), (800 : ℚ))])
      (fun b _ => b) (fun _ => none) [1, 2, 3] [1, 2, 3] [sampleField]
      [sampleField] rfl rfl).1⟩

lemma processFields_error_of_nonpos_page (embed : String → Option (ℚ × ℚ))
    (fields : List Field) (f : Field) (hf : f ∈ fields) (hpg : f.page ≤ 0)
    (pages : List (ℚ × ℚ)) : processFields embed pages fields = .error () := by
  induction fields with
  | nil => cases hf
  | cons g rest ih =>
    rcases List.mem_cons.mp hf with heq | hmem
    · subst heq
      simp only [processFields]
      rw [if_neg (by omega), if_pos (by omega)]
    · simp only [processFields]
      by_cases h1 : (pages.length : ℤ) ≤ g.page - 1
      · rw [if_pos h1]; exact ih hmem
      · rw [if_neg h1]
        by_cases h2 : g.page - 1 < 0
        · rw [if_pos h2]
        · rw [if_neg h2, ih hmem]; rfl

/-- C9: a field with page number at most 0 is not skipped: the guard only
checks the upper bound, the loop hits a non-existent page and throws, and the
request returns the HTTP 500 error response instead of a success response. -/
theorem nonpositive_page_returns_500 (embed : String → Option (ℚ × ℚ))
    (fields : List Field) (f : Field) (hf : f ∈ fields) (hpg : f.page ≤ 0) :
    (∀ pages, processFields embed pages fields = .error ()) ∧
    (∀ (sha256 : List ℕ → List ℕ) (loadPages : List ℕ → List (ℚ × ℚ))
      (save : List ℕ → List DrawOp → List ℕ) (pdf : List ℕ),
      signPdfModel sha256 loadPages save embed pdf fields = .serverError) := by
  have h1 := processFields_error_of_nonpos_page embed fields f hf hpg
  refine ⟨h1, ?_⟩
  intro sha256 loadPages save pdf
  simp [signPdfModel, h1 (loadPages pdf)]

/-- Witness for C9: a page-0 field makes the loop throw on a one-page document. -/
theorem nonpositive_page_returns_500_witness :
    field0 ∈ [field0] ∧ field0.page ≤ 0 ∧
    processFields (fun _ => none) [((600 : ℚ), (800 : ℚ))] [field0] = .error () :=
  ⟨List.mem_singleton.mpr rfl, by norm_num [field0, sampleField],
    (nonpositive_page_returns_500 (fun _ => none) [field0] field0
      (List.mem_singleton.mpr rfl) (by norm_num [field0, sampleField])).1
      [((600 : ℚ), (800 : ℚ))]⟩

/-- C10: move changes only x, y and page of the field with the given id, and
resize (handleResize) changes only width and height of that field; both leave
its other components, every other field, and the list's length and order
unchanged. -/
theorem move_and_resize_change_only_target (l : List Field) (fid : String)
    (px py : ℚ) (pg : ℤ) (w h : ℚ) :
    (move l fid px py pg).length = l.length ∧
    (handleResize l fid w h).length = l.length ∧
    (∀ (k : ℕ) (f : Field), l[k]? = some f →
      (∃ g, (move l fid px py pg)[k]? = some g ∧ g.id = f.id ∧ g.type = f.type ∧
        g.width = f.width ∧ g.height = f.height ∧ g.content = f.content ∧
        (f.id ≠ fid → g = f)) ∧
      (∃ g, (handleResize l fid w h)[k]? = some g ∧ g.id = f.id ∧
        g.type = f.type ∧ g.x = f.x ∧ g.y = f.y ∧ g.page = f.page ∧
        g.content = f.content ∧ (f.id ≠ fid → g = f))) := by
  refine ⟨List.length_map _ _, List.length_map _ _, ?_⟩
  intro k f hk
  constructor
  · refine ⟨moveOne fid px py pg f, ?_, ?_, ?_, ?_, ?_, ?_, ?_⟩
    · rw [move, List.getElem?_map, hk]; rfl
    all_goals unfold moveOne
    · split <;> rfl
    · split <;> rfl
    · split <;> rfl
    · split <;> rfl
    · split <;> rfl
    · intro hne; simp [hne]
  · refine ⟨if f.id = fid then { f with width := w, height := h } else f,
      ?_, ?_, ?_, ?_, ?_, ?_, ?_, ?_⟩
    · rw [handleResize, List.getElem?_map, hk]; rfl
    · split <;> rfl
    · split <;> rfl
    · split <;> rfl
    · split <;> rfl
    · split <;> rfl
    · split <;> rfl
    · intro hne; simp [hne]

/-- Witness for C10 at a one-element list whose field does not match the id. -/
theorem move_and_resize_change_only_target_witness :
    (([sampleField] : List Field)[0]? = some sampleField) ∧
    ((∃ g, (move [sampleField] "other" 1 2 3)[0]? = some g ∧
        g.id = sampleField.id ∧ g.type = sampleField.type ∧
        g.width = sampleField.width ∧ g.height = sampleField.height ∧
        g.content = sampleField.content ∧
        (sampleField.id ≠ "other" → g = sampleField)) ∧
      (∃ g, (handleResize [sampleField] "other" 4 5)[0]? = some g ∧
        g.id = sampleField.id ∧ g.type = sampleField.type ∧
        g.x = sampleField.x ∧ g.y = sampleField.y ∧ g.page = sampleField.page ∧
        g.content = sampleField.content ∧
        (sampleField.id ≠ "other" → g = sampleField))) :=
  ⟨rfl, (move_and_resize_change_only_target [sampleField] "other" 1 2 3 4 5).2.2
    0 sampleField rfl⟩

end Boloform
